import Mathlib

/-!
Verification of the mock-db-router request-matching and response-materialization
engine (Go sources `main.go` and the body-matching variant) against its design
specification.  The Go functions are shallowly embedded as pure Lean functions;
the PostgreSQL persistence collaborator (jsonb canonicalization, md5 body-hash
lookup, SQL NULL semantics) is modelled from the spec where noted.
-/

namespace MockDbRouter

/-! ## JSON values

Parsed JSON values, as produced by Go's `encoding/json` unmarshalling and as
stored in the `request_body`/`response_body` jsonb columns.  Numbers keep their
literal source text (numeric normalization by the store is not modelled; no
claim depends on it). -/

inductive Json where
  | null
  | bool (b : Bool)
  | num (lit : String)
  | str (s : String)
  | arr (elems : List Json)
  | obj (fields : List (String × Json))

/-! ## JSON parser

A total parser for the grammar accepted by Go's `json.Unmarshal` (RFC 8259 with
Go's restrictions: no leading zeros in numbers, no raw control characters in
strings, a single top-level value with surrounding whitespace allowed).  The
recursive core is structural on a fuel counter; `parseJson` supplies fuel
larger than the input, so fuel exhaustion is unreachable for real inputs. -/

def isJsonSpace (c : Char) : Bool :=
  c == ' ' || c == '\t' || c == '\n' || c == '\r'

def dropSpace : List Char → List Char
  | [] => []
  | c :: cs => if isJsonSpace c then dropSpace cs else c :: cs

def hexDigitVal (c : Char) : Option Nat :=
  if '0' ≤ c ∧ c ≤ '9' then some (c.toNat - '0'.toNat)
  else if 'a' ≤ c ∧ c ≤ 'f' then some (c.toNat - 'a'.toNat + 10)
  else if 'A' ≤ c ∧ c ≤ 'F' then some (c.toNat - 'A'.toNat + 10)
  else none

/-- Decode the body of a JSON string literal (opening quote already consumed).
Go rejects raw control characters below U+0020 and unknown escapes. -/
def decodeStrBody (acc : List Char) : List Char → Option (String × List Char)
  | [] => none
  | c :: cs =>
    if c = '"' then some (String.mk acc.reverse, cs)
    else if c = '\\' then
      match cs with
      | [] => none
      | e :: cs1 =>
        if e = '"' ∨ e = '\\' ∨ e = '/' then decodeStrBody (e :: acc) cs1
        else if e = 'b' then decodeStrBody (Char.ofNat 8 :: acc) cs1
        else if e = 'f' then decodeStrBody (Char.ofNat 12 :: acc) cs1
        else if e = 'n' then decodeStrBody ('\n' :: acc) cs1
        else if e = 'r' then decodeStrBody ('\r' :: acc) cs1
        else if e = 't' then decodeStrBody ('\t' :: acc) cs1
        else if e = 'u' then
          match cs1 with
          | h1 :: h2 :: h3 :: h4 :: cs2 =>
            match hexDigitVal h1, hexDigitVal h2, hexDigitVal h3, hexDigitVal h4 with
            | some a, some b, some c3, some d =>
              decodeStrBody (Char.ofNat (((a * 16 + b) * 16 + c3) * 16 + d) :: acc) cs2
            | _, _, _, _ => none
          | _ => none
        else none
    else if c.toNat < 32 then none
    else decodeStrBody (c :: acc) cs

/-- Longest digit run at the front of the input, and the rest. -/
def scanDigits : List Char → List Char × List Char
  | [] => ([], [])
  | c :: cs =>
    if c.isDigit then
      let (ds, rest) := scanDigits cs
      (c :: ds, rest)
    else ([], c :: cs)

/-- Decode a JSON number literal per Go's grammar ('-'? int frac? exp?, where
int is 0 or starts with a nonzero digit); returns the literal text. -/
def decodeNumBody (cs : List Char) : Option (String × List Char) :=
  let (sign, cs1) : List Char × List Char :=
    match cs with
    | '-' :: r => (['-'], r)
    | _ => ([], cs)
  match cs1 with
  | [] => none
  | c :: rest =>
    if ¬ c.isDigit then none
    else
      let (intPart, cs2) : List Char × List Char :=
        if c = '0' then (['0'], rest)
        else
          let (ds, r) := scanDigits rest
          (c :: ds, r)
      let fracResult : Option (List Char × List Char) :=
        match cs2 with
        | '.' :: r =>
          let (ds, r2) := scanDigits r
          if ds.isEmpty then none else some ('.' :: ds, r2)
        | _ => some ([], cs2)
      match fracResult with
      | none => none
      | some (fracPart, cs3) =>
        let expResult : Option (List Char × List Char) :=
          match cs3 with
          | e :: r =>
            if e = 'e' ∨ e = 'E' then
              let (sgn, r1) : List Char × List Char :=
                match r with
                | '+' :: r2 => (['+'], r2)
                | '-' :: r2 => (['-'], r2)
                | _ => ([], r)
              let (ds, r2) := scanDigits r1
              if ds.isEmpty then none else some (e :: sgn ++ ds, r2)
            else some ([], cs3)
          | [] => some ([], cs3)
        match expResult with
        | none => none
        | some (expPart, cs4) =>
          some (String.mk (sign ++ intPart ++ fracPart ++ expPart), cs4)

mutual

/-- Parse one JSON value after optional leading whitespace. -/
def parseVal : Nat → List Char → Option (Json × List Char)
  | 0, _ => none
  | Nat.succ fuel, cs =>
    match dropSpace cs with
    | 'n' :: 'u' :: 'l' :: 'l' :: r => some (Json.null, r)
    | 't' :: 'r' :: 'u' :: 'e' :: r => some (Json.bool true, r)
    | 'f' :: 'a' :: 'l' :: 's' :: 'e' :: r => some (Json.bool false, r)
    | '"' :: r =>
      match decodeStrBody [] r with
      | some (s, r1) => some (Json.str s, r1)
      | none => none
    | '[' :: r =>
      match dropSpace r with
      | ']' :: r1 => some (Json.arr [], r1)
      | r1 =>
        match parseElems fuel r1 with
        | some (es, r2) => some (Json.arr es, r2)
        | none => none
    | '\x7b' :: r =>
      match dropSpace r with
      | '\x7d' :: r1 => some (Json.obj [], r1)
      | r1 =>
        match parseMembers fuel r1 with
        | some (ms, r2) => some (Json.obj ms, r2)
        | none => none
    | c :: r =>
      if c = '-' ∨ c.isDigit then
        match decodeNumBody (c :: r) with
        | some (lit, r1) => some (Json.num lit, r1)
        | none => none
      else none
    | [] => none

/-- Parse one or more comma-separated array elements and the closing bracket. -/
def parseElems : Nat → List Char → Option (List Json × List Char)
  | 0, _ => none
  | Nat.succ fuel, cs =>
    match parseVal fuel cs with
    | none => none
    | some (v, r) =>
      match dropSpace r with
      | ',' :: r1 =>
        match parseElems fuel r1 with
        | some (vs, r2) => some (v :: vs, r2)
        | none => none
      | ']' :: r1 => some ([v], r1)
      | _ => none

/-- Parse one or more comma-separated object members and the closing brace. -/
def parseMembers : Nat → List Char → Option (List (String × Json) × List Char)
  | 0, _ => none
  | Nat.succ fuel, cs =>
    match dropSpace cs with
    | '"' :: r =>
      match decodeStrBody [] r with
      | none => none
      | some (key, r1) =>
        match dropSpace r1 with
        | ':' :: r2 =>
          match parseVal fuel r2 with
          | none => none
          | some (v, r3) =>
            match dropSpace r3 with
            | ',' :: r4 =>
              match parseMembers fuel r4 with
              | some (ms, r5) => some ((key, v) :: ms, r5)
              | none => none
            | '\x7d' :: r4 => some ([(key, v)], r4)
            | _ => none
        | _ => none
    | _ => none

end

/-- Whole-input JSON parse: one value, surrounding whitespace allowed, nothing
else.  `none` exactly when Go's `json.Unmarshal` would report an error. -/
def parseJson (s : String) : Option Json :=
  match parseVal (s.length + 1) s.toList with
  | some (j, rest) => if dropSpace rest = [] then some j else none
  | none => none

/-! ## Canonical jsonb text

Modelled from the spec: the persistence collaborator provides "a deterministic
text-canonicalization + hash function over JSON values" — `md5(x::jsonb::text)`
in the query.  The jsonb text form carries no insignificant whitespace and
stores object fields deduplicated (last occurrence of a key wins) and ordered
by a fixed total order on keys, so key ordering and whitespace differences in
the source text do not affect it.  Numeric normalization is not modelled
(numbers render as their literal text). -/

def escapeChar (c : Char) : String :=
  if c = '"' then "\\\""
  else if c = '\\' then "\\\\"
  else if c = '\n' then "\\n"
  else if c = '\r' then "\\r"
  else if c = '\t' then "\\t"
  else if c = Char.ofNat 8 then "\\b"
  else if c = Char.ofNat 12 then "\\f"
  else if c.toNat < 32 then
    "\\u00" ++ String.mk [Nat.digitChar (c.toNat / 16), Nat.digitChar (c.toNat % 16)]
  else String.singleton c

def renderString (s : String) : String :=
  "\"" ++ String.join (s.toList.map escapeChar) ++ "\""

/-- Keep only the last occurrence of every key (jsonb duplicate-key rule). -/
def dedupeKeysKeepLast : List (String × String) → List (String × String)
  | [] => []
  | p :: rest =>
    if rest.any fun q => q.1 == p.1 then dedupeKeysKeepLast rest
    else p :: dedupeKeysKeepLast rest

/-- Order on rendered fields: by key, lexicographically on the key's
characters (a fixed total order; any one realizes the spec's "deterministic"
canonical form). -/
def fieldLe (a b : String × String) : Prop := a.1.toList ≤ b.1.toList

instance : DecidableRel fieldLe :=
  fun a b => inferInstanceAs (Decidable (a.1.toList ≤ b.1.toList))

instance : IsTotal (String × String) fieldLe := ⟨fun a b => le_total a.1.toList b.1.toList⟩

instance : IsTrans (String × String) fieldLe := ⟨fun _ _ _ h h2 => le_trans h h2⟩

/-- Strict version of `fieldLe`, for uniqueness of the sorted form. -/
def fieldLt (a b : String × String) : Prop := a.1.toList < b.1.toList

instance : IsAntisymm (String × String) fieldLt :=
  ⟨fun _ _ h h2 => absurd h (lt_asymm h2)⟩

def sortFields (fs : List (String × String)) : List (String × String) :=
  List.insertionSort fieldLe fs

/-- Comma-separated `"key":value` texts of already-rendered object fields. -/
def renderFields : List (String × String) → String
  | [] => ""
  | [(k, v)] => renderString k ++ ":" ++ v
  | (k, v) :: p :: fs => renderString k ++ ":" ++ v ++ "," ++ renderFields (p :: fs)

def joinComma : List String → String
  | [] => ""
  | [x] => x
  | x :: y :: xs => x ++ "," ++ joinComma (y :: xs)

/-- Fuel-indexed canonical-text worker (structural on the fuel, which
`canonicalText` supplies as `sizeOf`, always enough for the nesting). -/
def canonTextGo : Nat → Json → String
  | 0, _ => ""
  | Nat.succ n, j =>
    match j with
    | .null => "null"
    | .bool true => "true"
    | .bool false => "false"
    | .num lit => lit
    | .str s => renderString s
    | .arr xs => "[" ++ joinComma (xs.map (canonTextGo n)) ++ "]"
    | .obj fs =>
      "\x7b" ++ renderFields (sortFields (dedupeKeysKeepLast
        (fs.map fun p => (p.1, canonTextGo n p.2)))) ++ "\x7d"

mutual

/-- Structural-size fuel bound for `canonTextGo` (one unit per node). -/
def jsonFuel : Json → Nat
  | .null => 1
  | .bool _ => 1
  | .num _ => 1
  | .str _ => 1
  | .arr xs => jsonListFuel xs + 1
  | .obj fs => jsonFieldsFuel fs + 1

def jsonListFuel : List Json → Nat
  | [] => 0
  | x :: xs => jsonFuel x + jsonListFuel xs

def jsonFieldsFuel : List (String × Json) → Nat
  | [] => 0
  | (_, v) :: fs => jsonFuel v + jsonFieldsFuel fs

end

/-- The canonical text of a JSON value (the model of `::jsonb::text`). -/
def canonicalText (j : Json) : String := canonTextGo (jsonFuel j) j

/-! ## Data model

`MockRow` is a row of `return.mock_responses` (schema in
`create_db_script.sql`): nullable jsonb `request_body`, jsonb `response_body`
(scanned into a Go string, so kept as text here), nullable text `headers`.
`MockResponse` mirrors the Go struct of the same name (the three scanned
columns; `Headers` is a `sql.NullString`, modelled as `Option String`). -/

structure MockRow where
  path : String
  method : String
  request_body : Option Json
  response_body : String
  response_status_code : Int
  headers : Option String

structure MockResponse where
  ResponseBody : String
  ResponseStatusCode : Int
  Headers : Option String
deriving DecidableEq

/-- The two parameterized lookup queries `getMockResponse` can issue
(the SQL texts at lines 107–113 and 116–122 of the body-matching variant). -/
inductive Query where
  | nullBody (path method : String)
  | bodyHash (path method requestBodyJSON : String)
deriving DecidableEq

/-- Errors surfaced by the store, as seen through `row.Scan`:
`noRows` is `sql.ErrNoRows`; `timeout` is the context-deadline error after the
5-second `context.WithTimeout`; `queryFailure` is any other driver error. -/
inductive DBError where
  | noRows
  | timeout
  | queryFailure (msg : String)
deriving DecidableEq

/-- Query selection in `getMockResponse`: the null-body query when the
validated request body string is empty, the body-hash query otherwise. -/
def selectQuery (path method requestBodyJSON : String) : Query :=
  if requestBodyJSON = "" then Query.nullBody path method
  else Query.bodyHash path method requestBodyJSON

/-- Modelled from the spec: the persistence collaborator's row filter.
The null-body query keeps rows with `request_body IS NULL`; the body-hash
query compares `md5(request_body::jsonb::text)` with `md5($3::jsonb::text)`.
Equal canonical texts give equal md5 digests, and md5 collisions are the
spec's accepted, unhandled risk, so md5 equality is modelled as equality of
the canonical texts.  When `request_body` is NULL the md5 comparison is SQL
NULL and the row is not selected; an unparsable `$3` would abort the query,
modelled as no match (unreachable from the handler, which validates first). -/
def rowMatches (q : Query) (row : MockRow) : Bool :=
  match q with
  | .nullBody p m => row.path == p && row.method == m && row.request_body.isNone
  | .bodyHash p m b =>
    row.path == p && row.method == m &&
      match row.request_body, parseJson b with
      | some rb, some jb => canonicalText rb == canonicalText jb
      | _, _ => false

/-- `db.QueryRowContext(...).Scan`: the first matching row, or `ErrNoRows`. -/
def runQuery (store : List MockRow) (q : Query) : Except DBError MockResponse :=
  match store.find? (rowMatches q) with
  | some row => .ok ⟨row.response_body, row.response_status_code, row.headers⟩
  | none => .error .noRows

/-- `getMockResponse` (body-matching variant, lines 100–137): build one of the
two queries from the arguments and run it once against the store. -/
def getMockResponse (store : List MockRow) (path method requestBodyJSON : String) :
    Except DBError MockResponse :=
  runQuery store (selectQuery path method requestBodyJSON)

/-! ## HTTP model -/

/-- An inbound request: `URL.Path`, `URL.RawQuery`, `Method`, and `Body`.
`body = none` models a nil `r.Body`; `some s` models a readable stream whose
remaining content is `s`. -/
structure HttpRequest where
  urlPath : String
  rawQuery : String
  method : String
  body : Option String
deriving DecidableEq

structure HttpResponse where
  status : Int
  headers : List (String × String)
  body : String
deriving DecidableEq

/-- `io.ReadAll`: yields the stream's remaining content and leaves the stream
drained. -/
def readAll (stream : String) : String × String := (stream, "")

/-- `readRequestBody` (lines 33–44): read the whole body, then replace
`r.Body` with a fresh buffer holding the same bytes so downstream readers can
re-read it.  (The `io.ReadAll` I/O-error path cannot occur in this pure
model.) -/
def readRequestBody (r : HttpRequest) : String × HttpRequest :=
  match r.body with
  | none => ("", r)
  | some stream =>
    let (bodyBytes, _drained) := readAll stream
    (bodyBytes, { r with body := some bodyBytes })

/-- `validateAndReturnJSON` (lines 46–57): empty input stays empty; input that
fails `json.Unmarshal` is demoted to the empty string with a nil error; valid
JSON is returned unchanged.  The error component (`Option String`, `none` for
Go's nil) is `none` on every path. -/
def validateAndReturnJSON (requestBody : String) : String × Option String :=
  if requestBody = "" then ("", none)
  else
    match parseJson requestBody with
    | none => ("", none)
    | some _ => (requestBody, none)

/-! ## Header codec and response materialization -/

/-- Go `net/textproto` token bytes legal in a MIME header key. -/
def isTokenChar (c : Char) : Bool :=
  c.isAlphanum || c = '!' || c = '#' || c = '$' || c = '%' || c = '&' ||
    c = Char.ofNat 39 || c = '*' || c = '+' || c = '-' || c = '.' ||
    c = '^' || c = '_' || c = Char.ofNat 96 || c = '|' || c = '~'

def canonChars : Bool → List Char → List Char
  | _, [] => []
  | upper, c :: cs =>
    (if upper then c.toUpper else c.toLower) :: canonChars (c = '-') cs

/-- `textproto.CanonicalMIMEHeaderKey`: keys made of token characters get the
first letter and every letter after a hyphen upper-cased and the rest
lower-cased; other keys pass through unchanged. -/
def canonMime (s : String) : String :=
  if s.toList.all isTokenChar then String.mk (canonChars true s.toList) else s

/-- `http.Header.Set`: store the value under the canonical key, replacing any
existing entry for that key. -/
def headerSet (hs : List (String × String)) (k v : String) : List (String × String) :=
  let ck := canonMime k
  if hs.any fun p => p.1 == ck then hs.map fun p => if p.1 == ck then (ck, v) else p
  else hs ++ [(ck, v)]

/-- `http.Header.Get`: the value stored under the canonical key, or `""` when
absent (Go returns the empty string for a missing header). -/
def headerGetStr (hs : List (String × String)) (k : String) : String :=
  match hs.find? fun p => p.1 == canonMime k with
  | some p => p.2
  | none => ""

/-- The value stored under the canonical key, if any. -/
def headerGetOpt (hs : List (String × String)) (k : String) : Option String :=
  (hs.find? fun p => p.1 == canonMime k).map Prod.snd

/-- Plain association-list lookup (Go map indexing `headers[key]`). -/
def lookupMap (hs : List (String × String)) (k : String) : Option String :=
  (hs.find? fun p => p.1 == k).map Prod.snd

/-- Go map assignment `headers[key] = value` on the decoded-header map:
replace the entry for an existing key, otherwise add one. -/
def mapInsert (hs : List (String × String)) (k v : String) : List (String × String) :=
  if hs.any fun p => p.1 == k then hs.map fun p => if p.1 == k then (k, v) else p
  else hs ++ [(k, v)]

/-- Go's `unicode.IsSpace` set, restricted to the code points Go treats as
space in Latin-1 (ASCII spaces plus NEL and NBSP). -/
def isGoSpace (c : Char) : Bool :=
  c = ' ' || c = '\t' || c = '\n' || c = Char.ofNat 11 || c = Char.ofNat 12 ||
    c = '\r' || c = Char.ofNat 133 || c = Char.ofNat 160

def dropLeadingSpace : List Char → List Char
  | [] => []
  | c :: cs => if isGoSpace c then dropLeadingSpace cs else c :: cs

/-- `strings.TrimSpace`: strip leading and trailing white space. -/
def strTrim (s : String) : String :=
  String.mk (dropLeadingSpace ((dropLeadingSpace s.toList.reverse).reverse))

def splitCharAux (sep : Char) : List Char → List Char → List String
  | [], acc => [String.mk acc.reverse]
  | c :: cs, acc =>
    if c = sep then String.mk acc.reverse :: splitCharAux sep cs []
    else splitCharAux sep cs (c :: acc)

/-- `strings.Split` with a one-character separator: the (nonempty) list of
pieces between occurrences of `sep`. -/
def splitChar (sep : Char) (cs : List Char) : List String := splitCharAux sep cs []

/-- `strings.SplitN(s, sep, 2)` when it finds the separator: the part before
the first `sep` and everything after it; `none` when `sep` does not occur
(Go then returns a one-element slice, which the caller drops). -/
def splitOnceAt (sep : Char) : List Char → Option (List Char × List Char)
  | [] => none
  | c :: cs =>
    if c = sep then some ([], cs)
    else (splitOnceAt sep cs).map fun p => (c :: p.1, p.2)

/-- `parseHeaders` (body-matching variant, lines 139–161): split the stored
text on `;`, trim each segment, skip empty segments, split each remaining
segment at the first `=` (dropping segments without one), trim key and value,
and assign into the map.  An invalid (NULL) or empty stored string gives the
empty map.  The Go map is modelled as an association list in insertion
order. -/
def parseHeaders (headerStr : Option String) : List (String × String) :=
  match headerStr with
  | none => []
  | some s =>
    if s = "" then []
    else
      (splitChar ';' s.toList).foldl
        (fun headers pair =>
          let pair := strTrim pair
          if pair = "" then headers
          else
            match splitOnceAt '=' pair.toList with
            | some (kc, vc) => mapInsert headers (strTrim (String.mk kc)) (strTrim (String.mk vc))
            | none => headers)
        []

/-- `writeResponse` (lines 59–75): apply the decoded headers with `Set`,
default `Content-Type` to `application/json` when `Get` returns the empty
string, default a zero status code to 200, and write the stored response body
verbatim. -/
def writeResponse (mockResp : MockResponse) : HttpResponse :=
  let headers := parseHeaders mockResp.Headers
  let hs := headers.foldl (fun acc p => headerSet acc p.1 p.2) []
  let hs :=
    if headerGetStr hs "Content-Type" = "" then
      headerSet hs "Content-Type" "application/json"
    else hs
  let statusCode := mockResp.ResponseStatusCode
  let statusCode := if statusCode = 0 then 200 else statusCode
  { status := statusCode, headers := hs, body := mockResp.ResponseBody }

/-- `http.NotFound`: status 404, plain-text headers, fixed body. -/
def notFoundResponse : HttpResponse :=
  { status := 404
    headers := [("Content-Type", "text/plain; charset=utf-8"),
                ("X-Content-Type-Options", "nosniff")]
    body := "404 page not found\n" }

/-- `http.Error(w, "Internal server error", 500)`: fixed body independent of
the underlying store error. -/
def internalErrorResponse : HttpResponse :=
  { status := 500
    headers := [("Content-Type", "text/plain; charset=utf-8"),
                ("X-Content-Type-Options", "nosniff")]
    body := "Internal server error\n" }

/-- The error-classification tail of `proxyHandler` (lines 189–200):
`sql.ErrNoRows` becomes 404, any other store error becomes the fixed 500
response, and a resolved record is materialized. -/
def handleResolved (res : Except DBError MockResponse) : HttpResponse :=
  match res with
  | .error .noRows => notFoundResponse
  | .error _ => internalErrorResponse
  | .ok mockResp => writeResponse mockResp

/-- `buildFullPath` (lines 163–169): append `?` plus the raw query string
exactly when the raw query string is nonempty. -/
def buildFullPath (r : HttpRequest) : String :=
  let urlPath := r.urlPath
  if r.rawQuery ≠ "" then urlPath ++ "?" ++ r.rawQuery else urlPath

/-- `proxyHandler` (body-matching variant, lines 171–201).  The read and
validation error branches (400 responses) are dead in this pure model because
both collaborator calls return nil errors. -/
def proxyHandler (store : List MockRow) (r : HttpRequest) : HttpResponse :=
  let urlPath := buildFullPath r
  let method := r.method
  let (requestBody, _r1) := readRequestBody r
  let (validatedJSON, _err) := validateAndReturnJSON requestBody
  handleResolved (getMockResponse store urlPath method validatedJSON)

/-- The store queries `proxyHandler` issues while handling one request: the
single call at line 189. -/
def proxyHandlerQueries (r : HttpRequest) : List Query :=
  let (requestBody, _r1) := readRequestBody r
  let (validatedJSON, _err) := validateAndReturnJSON requestBody
  [selectQuery (buildFullPath r) r.method validatedJSON]

/-! ## Connection lifecycle -/

/-- The process-wide state behind `initDB`: whether `once.Do` has consumed its
one execution, and whether a usable pool was established. -/
structure DBState where
  onceDone : Bool
  poolReady : Bool
deriving DecidableEq

/-- `initDB` (lines 77–98).  `openErr`/`pingErr` are the outcomes the
environment would give `sql.Open` and `db.Ping` if they were attempted on this
call.  The local `err` starts nil each call; `once.Do` runs its body only when
no prior call has, so a later call returns nil untouched. -/
def initDB (openErr pingErr : Option String) (s : DBState) : Option String × DBState :=
  if s.onceDone then (none, s)
  else
    match openErr with
    | some e => (some e, { onceDone := true, poolReady := false })
    | none =>
      match pingErr with
      | some e => (some e, { onceDone := true, poolReady := false })
      | none => (none, { onceDone := true, poolReady := true })

/-! ## Helper lemmas -/

theorem mem_mapInsert {hs : List (String × String)} {k v : String} {p : String × String}
    (h : p ∈ mapInsert hs k v) : p ∈ hs ∨ p = (k, v) := by
  unfold mapInsert at h
  split at h
  · obtain ⟨q, hq, he⟩ := List.mem_map.mp h
    by_cases hqk : (q.1 == k) = true
    · simp [hqk] at he
      exact Or.inr he.symm
    · simp [hqk] at he
      exact Or.inl (he ▸ hq)
  · rcases List.mem_append.mp h with h | h
    · exact Or.inl h
    · simp at h
      exact Or.inr h

theorem mapInsert_cons_ne {q : String × String} {rest : List (String × String)}
    {k v : String} (h : (q.1 == k) = false) :
    mapInsert (q :: rest) k v = q :: mapInsert rest k v := by
  have hne : ¬ q.1 = k := by simpa using h
  cases hany : rest.any fun p => p.1 == k <;>
    simp [mapInsert, List.any_cons, h, hany, hne]

theorem lookupMap_mapInsert_self (hs : List (String × String)) (k v : String) :
    lookupMap (mapInsert hs k v) k = some v := by
  induction hs with
  | nil => simp [mapInsert, lookupMap]
  | cons q rest ih =>
    by_cases hqk : (q.1 == k) = true
    · have hq' : q.1 = k := by simpa using hqk
      simp [mapInsert, lookupMap, List.any_cons, hqk, hq', List.find?_cons]
    · have h' : (q.1 == k) = false := by simpa using hqk
      rw [mapInsert_cons_ne h']
      simpa [lookupMap, List.find?_cons, h'] using ih

theorem headerSet_cons_ne {q : String × String} {rest : List (String × String)}
    {k v : String} (h : (q.1 == canonMime k) = false) :
    headerSet (q :: rest) k v = q :: headerSet rest k v := by
  have hne : ¬ q.1 = canonMime k := by simpa using h
  cases hany : rest.any fun p => p.1 == canonMime k <;>
    simp [headerSet, List.any_cons, h, hany, hne]

theorem headerGetOpt_headerSet_self (hs : List (String × String)) (k v : String) :
    headerGetOpt (headerSet hs k v) k = some v := by
  induction hs with
  | nil => simp [headerSet, headerGetOpt]
  | cons q rest ih =>
    by_cases hqk : (q.1 == canonMime k) = true
    · have hq' : q.1 = canonMime k := by simpa using hqk
      simp [headerSet, headerGetOpt, List.any_cons, hqk, hq', List.find?_cons]
    · have h' : (q.1 == canonMime k) = false := by simpa using hqk
      rw [headerSet_cons_ne h']
      simpa [headerGetOpt, List.find?_cons, h'] using ih

theorem headerGetOpt_of_getStr_ne {hs : List (String × String)} {k : String}
    (h : headerGetStr hs k ≠ "") : headerGetOpt hs k = some (headerGetStr hs k) := by
  unfold headerGetStr headerGetOpt at *
  cases hfind : hs.find? fun p => p.1 == canonMime k <;> simp [hfind] at h ⊢

theorem toList_injective {s t : String} (h : s.toList = t.toList) : s = t := by
  cases s with
  | mk d1 =>
    cases t with
    | mk d2 =>
      have h2 : d1 = d2 := h
      rw [h2]

theorem jsonFieldsFuel_perm {l₁ l₂ : List (String × Json)} (h : List.Perm l₁ l₂) :
    jsonFieldsFuel l₁ = jsonFieldsFuel l₂ := by
  induction h with
  | nil => rfl
  | cons x h ih =>
    cases x
    simp only [jsonFieldsFuel]
    omega
  | swap x y l =>
    cases x
    cases y
    simp only [jsonFieldsFuel]
    omega
  | trans h1 h2 ih1 ih2 => exact ih1.trans ih2

theorem dedupeKeysKeepLast_of_nodup {l : List (String × String)}
    (h : (l.map Prod.fst).Nodup) : dedupeKeysKeepLast l = l := by
  induction l with
  | nil => rfl
  | cons p rest ih =>
    rw [List.map_cons, List.nodup_cons] at h
    have hany : (rest.any fun q => q.1 == p.1) = false := by
      rw [List.any_eq_false]
      intro q hq
      simp only [beq_iff_eq]
      intro heq
      exact h.1 (List.mem_map.mpr ⟨q, hq, heq⟩)
    simp [dedupeKeysKeepLast, hany, ih h.2]

theorem sorted_fieldLt_of_nodup {l : List (String × String)}
    (hs : List.Sorted fieldLe l) (hn : (l.map Prod.fst).Nodup) :
    List.Sorted fieldLt l := by
  have hp : l.Pairwise fun a b => a.1 ≠ b.1 := by
    simpa [List.Nodup, List.pairwise_map] using hn
  exact (hs.and hp).imp fun h =>
    lt_of_le_of_ne h.1 fun hc => h.2 (toList_injective hc)

theorem sortFields_perm (l : List (String × String)) : List.Perm (sortFields l) l :=
  List.perm_insertionSort _ _

theorem sortFields_sorted (l : List (String × String)) :
    List.Sorted fieldLe (sortFields l) :=
  List.sorted_insertionSort _ _

theorem sortFields_eq_of_perm {l₁ l₂ : List (String × String)} (hp : List.Perm l₁ l₂)
    (hn : (l₁.map Prod.fst).Nodup) : sortFields l₁ = sortFields l₂ := by
  have hperm : List.Perm (sortFields l₁) (sortFields l₂) :=
    (sortFields_perm l₁).trans (hp.trans (sortFields_perm l₂).symm)
  have hn₁ : ((sortFields l₁).map Prod.fst).Nodup :=
    (((sortFields_perm l₁).map Prod.fst).nodup_iff).mpr hn
  have hn₂ : ((sortFields l₂).map Prod.fst).Nodup :=
    (((sortFields_perm l₂).map Prod.fst).nodup_iff).mpr ((hp.map Prod.fst).nodup_iff.mp hn)
  exact List.eq_of_perm_of_sorted hperm
    (sorted_fieldLt_of_nodup (sortFields_sorted l₁) hn₁)
    (sorted_fieldLt_of_nodup (sortFields_sorted l₂) hn₂)

theorem canonicalText_obj_perm {fs₁ fs₂ : List (String × Json)} (hp : List.Perm fs₁ fs₂)
    (hn : (fs₁.map Prod.fst).Nodup) :
    canonicalText (Json.obj fs₁) = canonicalText (Json.obj fs₂) := by
  have hsz : jsonFieldsFuel fs₁ = jsonFieldsFuel fs₂ := jsonFieldsFuel_perm hp
  unfold canonicalText
  rw [show jsonFuel (Json.obj fs₁) = jsonFieldsFuel fs₁ + 1 by rw [jsonFuel],
    show jsonFuel (Json.obj fs₂) = jsonFieldsFuel fs₂ + 1 by rw [jsonFuel],
    hsz]
  simp only [canonTextGo]
  have hmp : List.Perm (fs₁.map fun p => (p.1, canonTextGo (jsonFieldsFuel fs₂) p.2))
      (fs₂.map fun p => (p.1, canonTextGo (jsonFieldsFuel fs₂) p.2)) := hp.map _
  have hk : ((fs₁.map fun p => (p.1, canonTextGo (jsonFieldsFuel fs₂) p.2)).map Prod.fst) =
      fs₁.map Prod.fst := by
    rw [List.map_map]
    rfl
  have hn₁ : ((fs₁.map fun p =>
      (p.1, canonTextGo (jsonFieldsFuel fs₂) p.2)).map Prod.fst).Nodup := by
    rw [hk]
    exact hn
  have hn₂ := (hmp.map Prod.fst).nodup_iff.mp hn₁
  rw [dedupeKeysKeepLast_of_nodup hn₁, dedupeKeysKeepLast_of_nodup hn₂,
    sortFields_eq_of_perm hmp hn₁]

theorem dropSpace_eq_nil {cs : List Char} (h : cs.all isJsonSpace) : dropSpace cs = [] := by
  induction cs with
  | nil => rfl
  | cons c cs ih =>
    rw [List.all_cons, Bool.and_eq_true] at h
    simp [dropSpace, h.1, ih h.2]

theorem parseJson_all_space {s : String} (h : s.toList.all isJsonSpace) :
    parseJson s = none := by
  have hv : parseVal (s.length + 1) s.toList = none := by
    rw [parseVal, dropSpace_eq_nil h]
  unfold parseJson
  rw [hv]

theorem mem_parseHeaders_step :
    ∀ (segs : List String) (acc : List (String × String)) (p : String × String),
    p ∈ segs.foldl
        (fun headers pair =>
          let pair := strTrim pair
          if pair = "" then headers
          else
            match splitOnceAt '=' pair.toList with
            | some (kc, vc) => mapInsert headers (strTrim (String.mk kc)) (strTrim (String.mk vc))
            | none => headers)
        acc →
    p ∈ acc ∨ ∃ seg ∈ segs, strTrim seg ≠ "" ∧ ∃ kc vc,
      splitOnceAt '=' (strTrim seg).toList = some (kc, vc) ∧
      p = (strTrim (String.mk kc), strTrim (String.mk vc)) := by
  intro segs
  induction segs with
  | nil => exact fun acc p h => Or.inl h
  | cons seg rest ih =>
    intro acc p h
    rw [List.foldl_cons] at h
    rcases ih _ p h with hacc | ⟨seg', hseg', hcond⟩
    · by_cases hts : strTrim seg = ""
      · simp only [hts, if_pos rfl] at hacc
        exact Or.inl hacc
      · cases hsplit : splitOnceAt '=' (strTrim seg).toList with
        | none =>
          simp only [hts, if_neg hts, hsplit] at hacc
          exact Or.inl hacc
        | some kv =>
          cases kv with
          | mk kc vc =>
            simp only [hts, if_neg hts, hsplit] at hacc
            rcases mem_mapInsert hacc with h1 | h2
            · exact Or.inl h1
            · exact Or.inr ⟨seg, List.mem_cons_self seg rest, hts, kc, vc, hsplit, h2⟩
    · exact Or.inr ⟨seg', List.mem_cons_of_mem _ hseg', hcond⟩

/-! ## Claim theorems -/

/-- C2: a stored record whose `request_body` is NULL never matches the
body-hash query, so a request with a nonempty valid JSON body resolves
`NotFound` (hence 404) when no body-identity match exists — even though a
body-less record for the same path and method is present. -/
theorem c2_null_body_never_matches (store : List MockRow) (path method b : String) :
    (∀ row : MockRow, row.request_body = none →
      rowMatches (Query.bodyHash path method b) row = false) ∧
    (b ≠ "" →
      (∀ row ∈ store, rowMatches (Query.bodyHash path method b) row = false) →
      getMockResponse store path method b = .error .noRows ∧
      handleResolved (getMockResponse store path method b) = notFoundResponse ∧
      notFoundResponse.status = 404) ∧
    proxyHandler
      [⟨"/api/users", "POST", none, "\x7b\"message\":\"created\"\x7d", 201, none⟩]
      ⟨"/api/users", "", "POST", some "\x7b\"name\":\"New User\"\x7d"⟩ =
        notFoundResponse := by
  refine ⟨?_, ?_, by decide⟩
  · intro row hrb
    simp [rowMatches, hrb]
  · intro hb hall
    have hq : selectQuery path method b = Query.bodyHash path method b := by
      simp [selectQuery, hb]
    have hfind : store.find? (rowMatches (Query.bodyHash path method b)) = none :=
      List.find?_eq_none.mpr fun row hrow => by simp [hall row hrow]
    have hres : getMockResponse store path method b = .error .noRows := by
      simp [getMockResponse, hq, runQuery, hfind]
    exact ⟨hres, by rw [hres]; rfl, rfl⟩

/-- C2 witness: the theorem applied with a concrete nonempty JSON body against
a store with no body-identity match. -/
theorem c2_null_body_never_matches_witness :
    rowMatches (Query.bodyHash "/p" "POST" "\x7b\"a\":1\x7d")
      ⟨"/p", "POST", none, "r", 201, none⟩ = false ∧
    getMockResponse [] "/p" "POST" "\x7b\"a\":1\x7d" = .error .noRows ∧
    handleResolved (getMockResponse [] "/p" "POST" "\x7b\"a\":1\x7d") = notFoundResponse :=
  ⟨(c2_null_body_never_matches [] "/p" "POST" "\x7b\"a\":1\x7d").1
      ⟨"/p", "POST", none, "r", 201, none⟩ rfl,
   ((c2_null_body_never_matches [] "/p" "POST" "\x7b\"a\":1\x7d").2.1 (by decide)
      (by simp)).1,
   ((c2_null_body_never_matches [] "/p" "POST" "\x7b\"a\":1\x7d").2.1 (by decide)
      (by simp)).2.1⟩

/-- C4: the header codec splits on `;`, trims and skips empty segments, splits
each remaining segment at the first `=` (dropping segments without one), trims
key and value, lets later duplicate keys overwrite earlier ones, and always
returns a mapping; decoding `Content-Type=application/json;X-Test=1` gives
exactly those two pairs, and a trailing empty segment adds no empty-key
entry. -/
theorem c4_header_decode :
    parseHeaders (some "Content-Type=application/json;X-Test=1") =
      [("Content-Type", "application/json"), ("X-Test", "1")] ∧
    parseHeaders (some "A=1;") = [("A", "1")] ∧
    parseHeaders (some "A=1;A=2") = [("A", "2")] ∧
    parseHeaders (some "A") = [] ∧
    parseHeaders none = [] ∧
    (∀ (hs : List (String × String)) (k v : String),
      lookupMap (mapInsert hs k v) k = some v) ∧
    (∀ (s : String) (p : String × String), p ∈ parseHeaders (some s) →
      ∃ seg ∈ splitChar ';' s.toList, strTrim seg ≠ "" ∧ ∃ kc vc,
        splitOnceAt '=' (strTrim seg).toList = some (kc, vc) ∧
        p = (strTrim (String.mk kc), strTrim (String.mk vc))) := by
  refine ⟨by decide, by decide, by decide, by decide, rfl, lookupMap_mapInsert_self, ?_⟩
  intro s p hp
  by_cases hs : s = ""
  · rw [hs] at hp
    simp [parseHeaders] at hp
  · simp only [parseHeaders, if_neg hs] at hp
    rcases mem_parseHeaders_step _ _ _ hp with h | h
    · simp at h
    · exact h

/-- C4 witness: the overwrite rule and the entry-origin property at concrete
inputs. -/
theorem c4_header_decode_witness :
    lookupMap (mapInsert [("B", "0")] "A" "2") "A" = some "2" ∧
    ∃ seg ∈ splitChar ';' ("A=1").toList, strTrim seg ≠ "" ∧ ∃ kc vc,
      splitOnceAt '=' (strTrim seg).toList = some (kc, vc) ∧
      (("A", "1") : String × String) = (strTrim (String.mk kc), strTrim (String.mk vc)) :=
  ⟨c4_header_decode.2.2.2.2.2.1 [("B", "0")] "A" "2",
   c4_header_decode.2.2.2.2.2.2 "A=1" ("A", "1") (by decide)⟩

/-- C6: the handler classifies resolver outcomes at the boundary — no-rows
maps to 404, any other store failure (the 5-second timeout included) maps to
the fixed 500 response that carries no internal detail — and issues exactly
one store query per request, with no retry on either outcome. -/
theorem c6_error_classification (store : List MockRow) (r : HttpRequest) :
    handleResolved (Except.error DBError.noRows) = notFoundResponse ∧
    notFoundResponse.status = 404 ∧
    (∀ e : DBError, e ≠ DBError.noRows →
      handleResolved (Except.error e) = internalErrorResponse) ∧
    handleResolved (Except.error DBError.timeout) = internalErrorResponse ∧
    internalErrorResponse.status = 500 ∧
    internalErrorResponse.body = "Internal server error\n" ∧
    (∃ q : Query, proxyHandlerQueries r = [q] ∧
      (proxyHandlerQueries r).length = 1 ∧
      proxyHandler store r = handleResolved (runQuery store q)) := by
  refine ⟨rfl, rfl, ?_, rfl, rfl, rfl, ?_⟩
  · intro e he
    cases e with
    | noRows => exact absurd rfl he
    | timeout => rfl
    | queryFailure m => rfl
  · cases hrb : readRequestBody r with
    | mk rb r1 =>
      cases hvj : validateAndReturnJSON rb with
      | mk vj err =>
        exact ⟨selectQuery (buildFullPath r) r.method vj,
          by simp [proxyHandlerQueries, hrb, hvj],
          by simp [proxyHandlerQueries, hrb, hvj],
          by simp [proxyHandler, proxyHandlerQueries, hrb, hvj, getMockResponse]⟩

/-- C1: the resolver issues exactly one of two queries — the null-body query
when the normalized body is absent, the body-hash query otherwise; the hash
query matches a row exactly when path and method agree and the stored body's
canonical-text hash equals the submitted body's, computed inside the store, so
that whitespace (same parsed value) and key-order (permuted object fields)
differences do not affect matching. -/
theorem c1_resolver_queries (path method b : String) :
    (b = "" → selectQuery path method b = Query.nullBody path method) ∧
    (b ≠ "" → selectQuery path method b = Query.bodyHash path method b) ∧
    (∀ row : MockRow, rowMatches (Query.nullBody path method) row = true ↔
      row.path = path ∧ row.method = method ∧ row.request_body = none) ∧
    (∀ row : MockRow, rowMatches (Query.bodyHash path method b) row = true ↔
      row.path = path ∧ row.method = method ∧ ∃ rb jb,
        row.request_body = some rb ∧ parseJson b = some jb ∧
        canonicalText rb = canonicalText jb) ∧
    (∀ b2 : String, parseJson b2 = parseJson b →
      ∀ row : MockRow, rowMatches (Query.bodyHash path method b2) row =
        rowMatches (Query.bodyHash path method b) row) ∧
    (∀ fs₁ fs₂ : List (String × Json), List.Perm fs₁ fs₂ →
      (fs₁.map Prod.fst).Nodup →
      canonicalText (Json.obj fs₁) = canonicalText (Json.obj fs₂)) := by
  refine ⟨fun h => by simp [selectQuery, h], fun h => by simp [selectQuery, h],
    ?_, ?_, ?_, fun fs₁ fs₂ hp hn => canonicalText_obj_perm hp hn⟩
  · intro row
    simp [rowMatches, Bool.and_eq_true, beq_iff_eq, Option.isNone_iff_eq_none, and_assoc]
  · intro row
    cases hrb : row.request_body <;> cases hpj : parseJson b <;>
      simp [rowMatches, hrb, hpj, Bool.and_eq_true, beq_iff_eq, and_assoc]
  · intro b2 h row
    simp [rowMatches, h]

/-- C1 witness: the dichotomy at empty and nonempty bodies; a concrete
body-hash match; the same match from a whitespace-variant of the body; and
key-order invariance at a concrete two-field object. -/
theorem c1_resolver_queries_witness :
    selectQuery "/p" "GET" "" = Query.nullBody "/p" "GET" ∧
    selectQuery "/p" "POST" "\x7b\"a\":null\x7d" =
      Query.bodyHash "/p" "POST" "\x7b\"a\":null\x7d" ∧
    rowMatches (Query.bodyHash "/p" "POST" "\x7b\"a\":null\x7d")
      ⟨"/p", "POST", some (Json.obj [("a", Json.null)]), "r", 200, none⟩ = true ∧
    rowMatches (Query.bodyHash "/p" "POST" "\x7b \"a\" : null \x7d")
      ⟨"/p", "POST", some (Json.obj [("a", Json.null)]), "r", 200, none⟩ = true ∧
    canonicalText (Json.obj [("a", Json.null), ("b", Json.bool true)]) =
      canonicalText (Json.obj [("b", Json.bool true), ("a", Json.null)]) := by
  have h := c1_resolver_queries "/p" "POST" "\x7b\"a\":null\x7d"
  have hmatch : rowMatches (Query.bodyHash "/p" "POST" "\x7b\"a\":null\x7d")
      ⟨"/p", "POST", some (Json.obj [("a", Json.null)]), "r", 200, none⟩ = true :=
    (h.2.2.2.1 ⟨"/p", "POST", some (Json.obj [("a", Json.null)]), "r", 200, none⟩).mpr
      ⟨rfl, rfl, Json.obj [("a", Json.null)], Json.obj [("a", Json.null)], rfl, rfl, rfl⟩
  refine ⟨(c1_resolver_queries "/p" "GET" "").1 rfl, h.2.1 (by decide), hmatch, ?_, ?_⟩
  · exact (h.2.2.2.2.1 "\x7b \"a\" : null \x7d" rfl
      ⟨"/p", "POST", some (Json.obj [("a", Json.null)]), "r", 200, none⟩).trans hmatch
  · exact h.2.2.2.2.2 [("a", Json.null), ("b", Json.bool true)]
      [("b", Json.bool true), ("a", Json.null)]
      (List.Perm.swap ("b", Json.bool true) ("a", Json.null) []) (by decide)

/-- C5 counterexample: with stored headers `Content-Type=` the decoded headers
do set a Content-Type (with empty value), yet the materializer still sets
`application/json`, so "defaults iff the decoded headers did not set one" is
false as stated. -/
theorem c5_counterexample :
    ¬ ∀ mockResp : MockResponse,
        (headerGetOpt (writeResponse mockResp).headers "Content-Type" =
            some "application/json") ↔
          ∀ v, ("Content-Type", v) ∉ parseHeaders mockResp.Headers := by
  intro h
  have h2 := (h ⟨"x", 200, some "Content-Type="⟩).mp (by decide)
  exact h2 "" (by decide)

/-- C5 (amended): materialization yields the record's status code when
non-zero and 200 otherwise, writes the stored body verbatim, and defaults
Content-Type to application/json exactly when the applied decoded headers
carry no non-empty Content-Type value — an empty decoded value is overwritten
by the default, a non-empty one is preserved. -/
theorem c5_materialization (mockResp : MockResponse) :
    (mockResp.ResponseStatusCode ≠ 0 →
      (writeResponse mockResp).status = mockResp.ResponseStatusCode) ∧
    (mockResp.ResponseStatusCode = 0 → (writeResponse mockResp).status = 200) ∧
    (writeResponse mockResp).body = mockResp.ResponseBody ∧
    (headerGetStr ((parseHeaders mockResp.Headers).foldl
        (fun acc p => headerSet acc p.1 p.2) []) "Content-Type" = "" →
      headerGetOpt (writeResponse mockResp).headers "Content-Type" =
        some "application/json") ∧
    (∀ v, v ≠ "" →
      headerGetStr ((parseHeaders mockResp.Headers).foldl
        (fun acc p => headerSet acc p.1 p.2) []) "Content-Type" = v →
      headerGetOpt (writeResponse mockResp).headers "Content-Type" = some v) := by
  refine ⟨fun h => by simp [writeResponse, h], fun h => by simp [writeResponse, h],
    by simp [writeResponse], ?_, ?_⟩
  · intro h
    simp only [writeResponse]
    rw [if_pos h]
    exact headerGetOpt_headerSet_self _ _ _
  · intro v hv h
    simp only [writeResponse]
    rw [if_neg (by rw [h]; exact hv)]
    exact (headerGetOpt_of_getStr_ne (by rw [h]; exact hv)).trans (by rw [h])

/-- C5 witness: the amended theorem applied at a record with no stored
Content-Type (default applied) and at one with a non-empty stored
Content-Type (value preserved). -/
theorem c5_materialization_witness :
    headerGetOpt (writeResponse ⟨"x", 0, some "X-A=b"⟩).headers "Content-Type" =
      some "application/json" ∧
    headerGetOpt (writeResponse ⟨"x", 0, some "Content-Type=text/plain"⟩).headers
      "Content-Type" = some "text/plain" ∧
    (writeResponse ⟨"x", 0, some "X-A=b"⟩).status = 200 ∧
    (writeResponse ⟨"x", 404, some "X-A=b"⟩).status = 404 :=
  ⟨(c5_materialization ⟨"x", 0, some "X-A=b"⟩).2.2.2.1 (by decide),
   (c5_materialization ⟨"x", 0, some "Content-Type=text/plain"⟩).2.2.2.2
      "text/plain" (by decide) (by decide),
   (c5_materialization ⟨"x", 0, some "X-A=b"⟩).2.1 rfl,
   (c5_materialization ⟨"x", 404, some "X-A=b"⟩).1 (by decide)⟩

/-- C6 witness: classification applied at the timeout and at another concrete
non-no-rows store error. -/
theorem c6_error_classification_witness :
    handleResolved (Except.error (DBError.queryFailure "driver fault")) =
      internalErrorResponse ∧
    handleResolved (Except.error DBError.timeout) = internalErrorResponse :=
  ⟨(c6_error_classification [] ⟨"/p", "", "GET", none⟩).2.2.1
      (DBError.queryFailure "driver fault") (by decide),
   (c6_error_classification [] ⟨"/p", "", "GET", none⟩).2.2.2.1⟩

/-- C7: the lookup key's full path is the request path with `?` plus the raw
query string appended exactly when the query string is nonempty — no
parameter-order normalization, no percent-decoding — so the two registered
paths `/api/users?active=true&page=1` and `/api/users?page=1&active=true` are
distinct keys and each incoming string matches only its own record. -/
theorem c7_full_path (r : HttpRequest) :
    (r.rawQuery = "" → buildFullPath r = r.urlPath) ∧
    (buildFullPath r = r.urlPath ++ "?" ++ r.rawQuery ↔ r.rawQuery ≠ "") ∧
    "/api/users?active=true&page=1" ≠ "/api/users?page=1&active=true" ∧
    (proxyHandler
        [⟨"/api/users?active=true&page=1", "GET", none, "[1]", 200, none⟩,
         ⟨"/api/users?page=1&active=true", "GET", none, "[2]", 200, none⟩]
        ⟨"/api/users", "active=true&page=1", "GET", none⟩).body = "[1]" ∧
    (proxyHandler
        [⟨"/api/users?active=true&page=1", "GET", none, "[1]", 200, none⟩,
         ⟨"/api/users?page=1&active=true", "GET", none, "[2]", 200, none⟩]
        ⟨"/api/users", "page=1&active=true", "GET", none⟩).body = "[2]" := by
  refine ⟨fun h => by simp [buildFullPath, h],
    ⟨?_, fun hq => by simp [buildFullPath, hq]⟩, by decide, by decide, by decide⟩
  intro heq hq
  simp only [buildFullPath, hq, ne_eq, not_true_eq_false, if_false, ite_false] at heq
  have hlen := congrArg String.length heq
  rw [String.length_append, String.length_append] at hlen
  have h1 : ("?" : String).length = 1 := rfl
  have h0 : ("" : String).length = 0 := rfl
  omega

/-- C7 witness: the theorem applied at concrete requests with and without a
query string. -/
theorem c7_full_path_witness :
    buildFullPath ⟨"/api/users", "", "GET", none⟩ = "/api/users" ∧
    buildFullPath ⟨"/api/users", "active=true&page=1", "GET", none⟩ =
      "/api/users" ++ "?" ++ "active=true&page=1" :=
  ⟨(c7_full_path ⟨"/api/users", "", "GET", none⟩).1 rfl,
   (c7_full_path ⟨"/api/users", "active=true&page=1", "GET", none⟩).2.1.mpr (by decide)⟩

/-- C8: reading the request body buffers it fully and restores the request's
body, so a downstream reader observes the identical byte sequence (reading
alone would drain the stream; the restoration preserves it). -/
theorem c8_body_restored (r : HttpRequest) (bs : String) (h : r.body = some bs) :
    (readRequestBody r).1 = bs ∧ (readRequestBody r).2 = r ∧
      (readRequestBody r).2.body = some bs ∧ (readAll bs).2 = "" := by
  cases r with
  | mk up rq m b =>
    cases h
    simp [readRequestBody, readAll]

/-- C8 witness: the theorem applied at a concrete request carrying a body. -/
theorem c8_body_restored_witness :
    (readRequestBody ⟨"/p", "", "POST", some "xyz"⟩).1 = "xyz" ∧
    (readRequestBody ⟨"/p", "", "POST", some "xyz"⟩).2 = ⟨"/p", "", "POST", some "xyz"⟩ ∧
    (readRequestBody ⟨"/p", "", "POST", some "xyz"⟩).2.body = some "xyz" ∧
    (readAll "xyz").2 = "" :=
  c8_body_restored ⟨"/p", "", "POST", some "xyz"⟩ "xyz" rfl

/-- C9: a failing first `initDB` call (open or ping error) surfaces its error
only to that caller and leaves no usable pool; every later call returns nil
without re-attempting initialization. -/
theorem c9_init_once (pingErr laterOpen laterPing : Option String) (e : String) :
    initDB (some e) pingErr ⟨false, false⟩ = (some e, ⟨true, false⟩) ∧
    initDB none (some e) ⟨false, false⟩ = (some e, ⟨true, false⟩) ∧
    (∀ s : DBState, s.onceDone = true → initDB laterOpen laterPing s = (none, s)) := by
  refine ⟨rfl, rfl, fun s hs => by simp [initDB, hs]⟩

/-- C9 witness: after a failed first call the once-flag is set and the pool is
absent, yet the second call reports no error and changes nothing. -/
theorem c9_init_once_witness :
    initDB (some "connection refused") none ⟨false, false⟩ =
      (some "connection refused", ⟨true, false⟩) ∧
    initDB none none ⟨true, false⟩ = (none, ⟨true, false⟩) :=
  ⟨(c9_init_once none none none "connection refused").1,
   (c9_init_once none none none "connection refused").2.2 ⟨true, false⟩ rfl⟩

/-- C3: a body that fails to parse as JSON is silently treated as absent: the
validator returns the empty string with a nil error, the lookup uses the
null-body query (the same query as for a bodiless request), and the whole
handler behaves as if the request had no body at all. -/
theorem c3_malformed_body_demoted (s : String) (hne : s ≠ "") (hp : parseJson s = none) :
    validateAndReturnJSON s = ("", none) ∧
    (∀ path method, selectQuery path method (validateAndReturnJSON s).1 =
        Query.nullBody path method ∧
      selectQuery path method (validateAndReturnJSON s).1 = selectQuery path method "") ∧
    (∀ (store : List MockRow) (r : HttpRequest), r.body = some s →
      proxyHandler store r = proxyHandler store { r with body := none }) := by
  have hval : validateAndReturnJSON s = ("", none) := by
    simp [validateAndReturnJSON, hne, hp]
  refine ⟨hval, fun path method => by simp [hval, selectQuery], ?_⟩
  intro store r hb
  cases r with
  | mk up rq m b =>
    cases hb
    simp [proxyHandler, readRequestBody, readAll, hval, buildFullPath]
    simp [validateAndReturnJSON]

/-- C3 witness: the theorem applied at the concrete malformed body
`not json`. -/
theorem c3_malformed_body_demoted_witness :
    validateAndReturnJSON "not json" = ("", none) ∧
    selectQuery "/api/users" "POST" (validateAndReturnJSON "not json").1 =
      Query.nullBody "/api/users" "POST" ∧
    proxyHandler [] ⟨"/api/users", "", "POST", some "not json"⟩ =
      proxyHandler [] ⟨"/api/users", "", "POST", none⟩ :=
  ⟨(c3_malformed_body_demoted "not json" (by decide) rfl).1,
   ((c3_malformed_body_demoted "not json" (by decide) rfl).2.1 "/api/users" "POST").1,
   (c3_malformed_body_demoted "not json" (by decide) rfl).2.2 []
     ⟨"/api/users", "", "POST", some "not json"⟩ rfl⟩

/-- C10: any syntactically valid JSON body text — including the bare literal
`null` — counts as present and is routed to the hash-match query, while a
whitespace-only body fails JSON validation, counts as absent, and is routed to
the null-body query; the empty test is on the validated string. -/
theorem c10_body_presence (path method s : String) :
    (∀ j, parseJson s = some j →
      s ≠ "" ∧ validateAndReturnJSON s = (s, none) ∧
        selectQuery path method (validateAndReturnJSON s).1 =
          Query.bodyHash path method s) ∧
    (parseJson "null" = some Json.null ∧
      validateAndReturnJSON "null" = ("null", none) ∧
      selectQuery path method "null" = Query.bodyHash path method "null") ∧
    (∀ s2 : String, s2 ≠ "" → s2.toList.all isJsonSpace →
      parseJson s2 = none ∧ validateAndReturnJSON s2 = ("", none) ∧
        selectQuery path method (validateAndReturnJSON s2).1 =
          Query.nullBody path method ∧
        (validateAndReturnJSON s2).1 = (validateAndReturnJSON "").1) := by
  refine ⟨?_, ⟨rfl, rfl, by simp [selectQuery]⟩, ?_⟩
  · intro j hj
    have hne : s ≠ "" := by
      intro he
      rw [he] at hj
      exact Option.noConfusion hj
    have hval : validateAndReturnJSON s = (s, none) := by
      simp [validateAndReturnJSON, hne, hj]
    exact ⟨hne, hval, by simp [hval, selectQuery, hne]⟩
  · intro s2 h2 hsp
    have hp := parseJson_all_space hsp
    have hval : validateAndReturnJSON s2 = ("", none) := by
      simp [validateAndReturnJSON, h2, hp]
    exact ⟨hp, hval, by simp [hval, selectQuery], by rw [hval]; rfl⟩

/-- C10 witness: the theorem applied at the literal `null` body and at a
one-space body. -/
theorem c10_body_presence_witness :
    validateAndReturnJSON "null" = ("null", none) ∧
    selectQuery "/p" "POST" (validateAndReturnJSON "null").1 =
      Query.bodyHash "/p" "POST" "null" ∧
    parseJson " " = none ∧
    selectQuery "/p" "POST" (validateAndReturnJSON " ").1 = Query.nullBody "/p" "POST" := by
  refine ⟨?_, ?_, ?_, ?_⟩
  · exact ((c10_body_presence "/p" "POST" "null").1 Json.null rfl).2.1
  · exact ((c10_body_presence "/p" "POST" "null").1 Json.null rfl).2.2
  · exact ((c10_body_presence "/p" "POST" " ").2.2 " " (by decide) (by decide)).1
  · exact ((c10_body_presence "/p" "POST" " ").2.2 " " (by decide) (by decide)).2.2.1

end MockDbRouter
